import Mathlib

/-!
# Verification of Media Downloader Pro (src/media_downloader.py)

Shallow embedding of the download-orchestration core of the repository:

* `DownloadThread` (worker loop `run`, progress callback `progress_hook`,
  option builder `build_ytdlp_options`, cancellation `stop`);
* `FFmpegManager` (`find_ffmpeg`, `download_ffmpeg`) — the runtime-binary
  acquisition state machine;
* the application-level gate `YouTubeDownloaderApp.start_download` and
  `cancel_download`.

External effects (Qt signal emissions, thread joins) are reified as data:
a worker run produces the list of events it emits, and each `FFmpegManager`
status emission records the resolved path at the moment of emission.
Nondeterminism of the environment (filesystem, network, extraction library)
is a parameter of the embedded functions.
-/

namespace MediaDownloader

/-! ## Events emitted by `DownloadThread`

`DownloadThread` communicates through two Qt signals:
`update_progress = pyqtSignal(int, str)` and `finished = pyqtSignal()`.
Each `Event` constructor below corresponds to exactly one emit site in the
source; `emitArgs` recovers the concrete `(percent, message)` payload of the
`update_progress` emissions (`batchDone` is the zero-argument `finished`
signal).  `self.tr` is the identity on the English locale, so the message
strings are the literal format strings of the source. -/

inductive Event where
  /-- Line 148: update_progress emitted with percent 0 and the Processing message. -/
  | processing (url : String)
  /-- Line 168: update_progress emitted with the parsed percent and the Downloading message. -/
  | downloading (percent : Int) (filename : String)
  /-- Line 156: update_progress emitted with percent 100 and the Finished message. -/
  | succeeded (url : String)
  /-- Line 159: update_progress emitted with percent 0 and the Error message. -/
  | failed (url : String) (errMsg : String)
  /-- Line 161: the finished signal. -/
  | batchDone
  deriving DecidableEq, Repr

/-- The concrete `(percent, message)` arguments of the `update_progress`
emission an `Event` stands for; `none` for the argumentless `finished`
signal. -/
def emitArgs : Event → Option (Int × String)
  | .processing url => some (0, "Processing: " ++ url)
  | .downloading p f => some (p, "Downloading: " ++ f)
  | .succeeded url => some (100, "✔ Finished: " ++ url)
  | .failed _ e => some (0, "❌ Error: " ++ e)
  | .batchDone => none

def Event.isSucceeded : Event → Bool
  | .succeeded _ => true
  | _ => false

def Event.isProcessing : Event → Bool
  | .processing _ => true
  | _ => false

def Event.isDownloading : Event → Bool
  | .downloading _ _ => true
  | _ => false

/-! ## Parsing the library's percent string

`progress_hook` runs `int(float(d.get('_percent_str', '0%').replace('%', '')))`
inside `try ... except (ValueError, TypeError): pass`.  We model the
percent-sign removal as a character filter and Python's
`float` literal syntax for finite decimals — optional surrounding whitespace,
optional sign, digits with an optional fractional part, and an optional
decimal exponent — followed by `int`'s truncation toward zero.  (Python's
`float` additionally accepts `inf`/`nan` spellings and digit-group
underscores; those never arise from yt-dlp's `_percent_str` and are outside
the model.)  A parse failure is the `ValueError` branch, i.e. `none`. -/

/-- Whitespace strip on both ends, Python str.strip for the ASCII
whitespace that arises here. -/
def stripChars (cs : List Char) : List Char :=
  ((cs.dropWhile Char.isWhitespace).reverse.dropWhile Char.isWhitespace).reverse

/-- String-level strip. -/
def pyStrip (s : String) : String := ⟨stripChars s.toList⟩

/-- Model of the source expression removing every percent character from the
reported string (str.replace with pattern percent and empty replacement). -/
def stripPercent (s : String) : String := ⟨s.toList.filter (fun c => c ≠ '%')⟩

/-- Split a leading run of decimal digits off a character list. -/
def takeDigits : List Char → List Char × List Char
  | [] => ([], [])
  | c :: cs =>
      if c.isDigit then
        let (ds, rest) := takeDigits cs
        (c :: ds, rest)
      else ([], c :: cs)

/-- Numeric value of a digit string (most significant first). -/
def digitsVal (ds : List Char) : Nat :=
  ds.foldl (fun acc c => 10 * acc + (c.toNat - '0'.toNat)) 0

/-- Optional leading `+`/`-`; returns the sign and the remainder. -/
def takeSign : List Char → Int × List Char
  | '+' :: cs => (1, cs)
  | '-' :: cs => (-1, cs)
  | cs => (1, cs)

/-- Parse the exponent part after the mantissa: either empty, or
`e`/`E` followed by an optionally signed digit run consuming the whole
remainder.  `none` on malformed input. -/
def parseExponent : List Char → Option Int
  | [] => some 0
  | c :: cs =>
      if c = 'e' ∨ c = 'E' then
        let (s, cs₁) := takeSign cs
        let (ds, rest) := takeDigits cs₁
        if ds = [] ∨ rest ≠ [] then none
        else some (s * (digitsVal ds : Int))
      else none

/-- Parse a finite Python float literal into
`(sign, mantissa digits, decimal exponent)`: the represented value is
`sign * digitsVal mantissa * 10 ^ exponent`. -/
def parseFloatParts (s : String) : Option (Int × List Char × Int) :=
  let cs := stripChars s.toList
  let (sign, cs₁) := takeSign cs
  let (intDs, cs₂) := takeDigits cs₁
  match cs₂ with
  | '.' :: cs₃ =>
      let (fracDs, cs₄) := takeDigits cs₃
      if intDs = [] ∧ fracDs = [] then none
      else
        match parseExponent cs₄ with
        | some e => some (sign, intDs ++ fracDs, e - (fracDs.length : Int))
        | none => none
  | rest =>
      if intDs = [] then none
      else
        match parseExponent rest with
        | some e => some (sign, intDs, e)
        | none => none

/-- Model of `int(float(s))` for a finite decimal string: the parsed value truncated
toward zero; `none` models the `ValueError` that `float` raises on a
malformed string. -/
def pyIntOfFloatStr (s : String) : Option Int :=
  match parseFloatParts s with
  | none => none
  | some (sign, ds, e) =>
      let m : Int := (digitsVal ds : Int)
      if 0 ≤ e then some (sign * m * 10 ^ e.toNat)
      else some (sign * (m.tdiv (10 ^ (-e).toNat)))

/-! ## `DownloadThread.progress_hook` -/

/-- The fields of the dict `d` that `progress_hook` reads:
`d['status']`, `d.get('_percent_str', '0%')`, `d.get('filename', '')`.
`none` models an absent key (the source uses `.get` defaults for the
latter two). -/
structure HookDict where
  status : String
  percent_str : Option String
  filename : Option String
  deriving DecidableEq, Repr

/-- Model of `DownloadThread.progress_hook` (source lines 163–173), as the list of
events the invocation emits.  The `try/except (ValueError, TypeError)`
around the conversion means a parse failure emits nothing and raises
nothing — the function stays total. -/
def progress_hook (d : HookDict) : List Event :=
  if d.status = "downloading" then
    match pyIntOfFloatStr (stripPercent (d.percent_str.getD "0%")) with
    | some n => [Event.downloading n (d.filename.getD "")]
    | none => []
  else []

/-! ## `DownloadThread.build_ytdlp_options` -/

/-- One entry of the `'postprocessors'` list. -/
structure Postprocessor where
  key : String
  preferredcodec : String
  preferredquality : String
  deriving DecidableEq, Repr

/-- The option dict handed to `yt_dlp.YoutubeDL`.  Keys the source never
sets for a given format are `none` / `[]`. -/
structure YdlOpts where
  quiet : Bool
  no_warnings : Bool
  outtmpl : String
  noplaylist : Bool
  ignoreerrors : Bool
  ffmpeg_location : Option String
  format : Option String
  postprocessors : List Postprocessor
  keepvideo : Option Bool
  merge_output_format : Option String
  deriving DecidableEq, Repr

/-- Model of `os.path.join(a, b)` for the relative second components used here. -/
def pathJoin (a b : String) : String := a ++ "/" ++ b

/-- Leading-match test on character lists, the Python startswith check. -/
def startsWithChars : List Char → List Char → Bool
  | _, [] => true
  | [], _ :: _ => false
  | c :: cs, p :: ps => c = p && startsWithChars cs ps

/-- Python str.startswith. -/
def pyStartsWith (s pat : String) : Bool := startsWithChars s.toList pat.toList

/-- Model of `DownloadThread.build_ytdlp_options` (source lines 175–210), as a
function of the thread's fields `download_folder`, `format_type`,
`ffmpeg_path`.  `'ffmpeg_location': self.ffmpeg_path if self.ffmpeg_path
else None` maps an empty (falsy) path to `None`. -/
def build_ytdlp_options (download_folder format_type : String)
    (ffmpeg_path : Option String) : YdlOpts :=
  let base : YdlOpts :=
    { quiet := true
      no_warnings := true
      outtmpl := pathJoin download_folder "%(title)s.%(ext)s"
      noplaylist := true
      ignoreerrors := true
      ffmpeg_location :=
        match ffmpeg_path with
        | some p => if p = "" then none else some p
        | none => none
      format := none
      postprocessors := []
      keepvideo := none
      merge_output_format := none }
  if pyStartsWith format_type "mp3" then
    { base with
        format := some "bestaudio/best"
        postprocessors :=
          [{ key := "FFmpegExtractAudio"
             preferredcodec := "mp3"
             preferredquality := if format_type = "mp3_320" then "320" else "192" }]
        keepvideo := some false }
  else if pyStartsWith format_type "mp4" then
    let height : String :=
      if format_type = "mp4_720" then "720"
      else if format_type = "mp4_1080" then "1080"
      else "best"
    let fmt : String :=
      if height = "best" then
        "bestvideo[ext=mp4]+bestaudio[ext=m4a]/best[ext=mp4]/best"
      else
        "bestvideo[height<=" ++ height ++ "][ext=mp4]+bestaudio[ext=m4a]/best[height<=" ++
          height ++ "][ext=mp4]/best"
    { base with format := some fmt, merge_output_format := some "mp4" }
  else base

/-! ## `DownloadThread.run`

The worker iterates its URLs; before each it checks the cooperative flag
`self.is_running` (set `False` only by `stop`) and breaks if cleared.  For
each URL it emits a processing event, invokes the extraction library, and
emits a succeeded or failed terminal event.  After the loop it emits the
`finished` signal once.

The extraction library's behaviour on a URL is a parameter: the progress
hook invocations it performs (each a `HookDict`) and whether the call
returned normally or raised (with the exception's text `str(e)`).  The flag
is a parameter `alive : Nat → Bool` giving the value of `self.is_running`
observed at the loop-top check of each iteration index. -/

/-- Behaviour of `self.ydl.download([url])` on one URL: the progress-hook
invocations that ran, and `some msg` when the call raised an exception with
text `msg` (after those invocations), `none` on normal return. -/
structure ExtractBeh where
  hooks : List HookDict
  err : Option String

/-- The events one loop iteration emits for `url` (source lines 148–159):
the processing event, the downloading events the registered hook produced,
then `succeeded` on normal return or `failed` with `str(e)` when the
extraction call raised (the `except Exception` swallows it). -/
def urlEvents (beh : String → ExtractBeh) (url : String) : List Event :=
  Event.processing url ::
    ((beh url).hooks.flatMap progress_hook ++
      match (beh url).err with
      | none => [Event.succeeded url]
      | some e => [Event.failed url e])

/-- The `for i, url in enumerate(self.urls)` loop of `run`, started at
iteration index `i`: stops (`break`) at the first index whose `is_running`
check reads `false`. -/
def runLoop (beh : String → ExtractBeh) (alive : Nat → Bool) :
    Nat → List String → List Event
  | _, [] => []
  | i, url :: rest =>
      if alive i then urlEvents beh url ++ runLoop beh alive (i + 1) rest
      else []

/-- Model of `DownloadThread.run` (source lines 143–161): the loop's events followed
by the single `finished.emit()`. -/
def runThread (beh : String → ExtractBeh) (alive : Nat → Bool)
    (urls : List String) : List Event :=
  runLoop beh alive 0 urls ++ [Event.batchDone]

/-! ## `DownloadThread.stop` and `YouTubeDownloaderApp.cancel_download`

The blocking behaviour of cancellation is reified as the sequence of thread
joins the caller performs, each with its timeout.  `stop` (lines 212–218)
clears `is_running`, forwards a best-effort abort to the library, and — when
the worker thread is still running — calls `self.wait(2000)`, a join bounded
by 2000 ms.  `cancel_download` (lines 987–992) calls `stop()` and then
`self.download_thread.wait()` with no argument, Qt's unbounded join. -/

inductive JoinCall where
  /-- Call of QThread wait with a timeout: returns after at most `ms` milliseconds. -/
  | timedWait (ms : Nat)
  /-- Call of QThread wait with no timeout: blocks until the thread exits, with no bound. -/
  | unboundedWait
  deriving DecidableEq, Repr

/-- A join that returns within some fixed bound. -/
def JoinCall.isBounded : JoinCall → Prop
  | .timedWait _ => True
  | .unboundedWait => False

/-- The joins `DownloadThread.stop` performs, given whether
`self.isRunning()` is true at the check on line 216. -/
def stopJoins (threadRunning : Bool) : List JoinCall :=
  if threadRunning then [JoinCall.timedWait 2000] else []

/-- The joins `YouTubeDownloaderApp.cancel_download` performs, given
whether `self.download_thread` is set and whether the worker thread is
still running when `stop` checks it: `stop()`'s joins followed by the
unconditional untimed `self.download_thread.wait()`. -/
def cancelDownloadJoins (hasThread threadRunning : Bool) : List JoinCall :=
  if hasThread then stopJoins threadRunning ++ [JoinCall.unboundedWait] else []

/-! ## `FFmpegManager` — runtime-binary acquisition

The manager's mutable fields are `self.ffmpeg_path` (initially `None`) and
`self.install_status` (initially `"checking"`).  Every
`status_changed.emit(status, message)` is recorded as an `Emission`
carrying, in `pathAtEmit`, the value of `self.ffmpeg_path` at the moment of
the emission.  The filesystem, network and archive environment is an
`AcqEnv` parameter. -/

structure MgrState where
  ffmpeg_path : Option String
  install_status : String
  deriving DecidableEq, Repr

/-- The `__init__` state: `ffmpeg_path = None`, `install_status = "checking"`. -/
def initMgrState : MgrState := { ffmpeg_path := none, install_status := "checking" }

/-- One `status_changed.emit(status, message)`, with the resolved path at
the moment of emission. -/
structure Emission where
  status : String
  message : String
  pathAtEmit : Option String
  deriving DecidableEq, Repr

/-- Environment of one `find_ffmpeg` run.  `whichResult` is
`shutil.which("ffmpeg")`; `pathExists` is `os.path.exists`; `fetchOk`,
`unzipOk` say whether `urlretrieve` and `ZipFile(...).extractall` return
normally (a `False` is the exception `download_ffmpeg`'s `except` catches at
that step); `fetchPercents` are the percent values the `report_progress`
callback reported before the fetch finished or failed; `binaryDir` is the
directory of the `os.walk` hit for `ffmpeg.exe` (`none`: not found);
`rmtreeOk` says whether `shutil.rmtree(temp_dir)` returns normally. -/
structure AcqEnv where
  whichResult : Option String
  plat : String
  programFiles : String
  programFilesX86 : String
  cwd : String
  home : String
  pathExists : String → Bool
  fetchOk : Bool
  fetchPercents : List Int
  unzipOk : Bool
  binaryDir : Option String
  rmtreeOk : Bool

/-- The platform-specific well-known locations probed by `find_ffmpeg`
(source lines 51–62). -/
def commonPaths (env : AcqEnv) : List String :=
  if env.plat = "windows" then
    [pathJoin env.programFiles "FFmpeg/bin/ffmpeg.exe",
     pathJoin env.programFilesX86 "FFmpeg/bin/ffmpeg.exe",
     pathJoin env.cwd "ffmpeg/bin/ffmpeg.exe"]
  else
    ["/usr/local/bin/ffmpeg", "/usr/bin/ffmpeg", pathJoin env.home "bin/ffmpeg"]

/-- Model of `FFmpegManager.download_ffmpeg` (source lines 88–125), returning the
state after the call, the boolean it returns (`False` also for the caught
exceptions), and its emissions.  The progress emissions of the
`report_progress` callback happen while `self.ffmpeg_path` still holds its
pre-call value.  When the binary is found, `self.ffmpeg_path` and
`self.install_status = "installed"` are set *before* `shutil.rmtree`; an
exception there is caught and turns the return into `False` with those
assignments already performed. -/
def download_ffmpeg (env : AcqEnv) (st : MgrState) :
    MgrState × Bool × List Emission :=
  let progEvs : List Emission :=
    env.fetchPercents.map fun p =>
      { status := "downloading"
        message := "Downloading FFmpeg... " ++ toString p ++ "%"
        pathAtEmit := st.ffmpeg_path }
  if ¬ env.fetchOk then (st, false, progEvs)
  else if ¬ env.unzipOk then (st, false, progEvs)
  else
    match env.binaryDir with
    | none => (st, false, progEvs)
    | some dir =>
        let st' : MgrState :=
          { ffmpeg_path := some (pathJoin dir "ffmpeg.exe")
            install_status := "installed" }
        (st', env.rmtreeOk, progEvs)

/-- Model of `FFmpegManager.find_ffmpeg` (source lines 39–86): the PATH lookup, the
well-known-location probe, the Windows-only download fallback, and the
final `missing` transition, returning the final state, the boolean result
and all emissions in order. -/
def find_ffmpeg (env : AcqEnv) (st : MgrState) :
    MgrState × Bool × List Emission :=
  match env.whichResult with
  | some p =>
      let st' : MgrState := { ffmpeg_path := some p, install_status := "installed" }
      (st', true, [{ status := "installed", message := "FFmpeg ready",
                     pathAtEmit := st'.ffmpeg_path }])
  | none =>
      match (commonPaths env).find? env.pathExists with
      | some p =>
          let st' : MgrState := { ffmpeg_path := some p, install_status := "installed" }
          (st', true, [{ status := "installed", message := "FFmpeg ready",
                         pathAtEmit := st'.ffmpeg_path }])
      | none =>
          if env.plat = "windows" then
            let preEv : Emission :=
              { status := "downloading", message := "Downloading FFmpeg..."
                pathAtEmit := st.ffmpeg_path }
            let r := download_ffmpeg env st
            if r.2.1 then
              (r.1, true,
               preEv :: r.2.2 ++
                 [{ status := "installed", message := "FFmpeg ready",
                    pathAtEmit := r.1.ffmpeg_path }])
            else
              let st' : MgrState := { r.1 with install_status := "missing" }
              (st', false,
               preEv :: r.2.2 ++
                 [{ status := "missing", message := "FFmpeg missing",
                    pathAtEmit := st'.ffmpeg_path }])
          else
            let st' : MgrState := { st with install_status := "missing" }
            (st', false,
             [{ status := "missing", message := "FFmpeg missing",
                pathAtEmit := st'.ffmpeg_path }])

/-! ## The acquisition download's progress callback

`report_progress(block_num, block_size, total_size)` (source lines 96–98)
computes `min(int(block_num * block_size * 100 / total_size), 100)`.
Python's `/` is true division and raises `ZeroDivisionError` when
`total_size == 0`; that undefined case is `none`.  `int(...)` truncates the
quotient toward zero, modelled exactly by `Int.tdiv` on the products. -/
def report_progress (block_num block_size total_size : Int) : Option Int :=
  if total_size = 0 then none
  else some (min ((block_num * block_size * 100).tdiv total_size) 100)

/-! ## `YouTubeDownloaderApp.start_download` -/

/-- The constructor arguments of the `DownloadThread` built on source lines
955–960. -/
structure WorkerInit where
  urls : List String
  download_folder : String
  format_type : String
  ffmpeg_path : Option String
  deriving DecidableEq, Repr

/-- The outcome of one `start_download` call. -/
inductive StartOutcome where
  /-- Rejected on line 936: `self.ffmpeg_manager.install_status != "installed"`. -/
  | errNotReady
  /-- Rejected on line 943: empty URL list. -/
  | errNoUrls
  /-- Rejected on line 950: `os.makedirs` raised `OSError` with text `msg`. -/
  | errMkdir (msg : String)
  /-- A `DownloadThread` was constructed and started with these arguments. -/
  | started (w : WorkerInit)
  deriving DecidableEq, Repr

/-- Split a character list at newline characters (Python str.split with a
newline separator: an empty input yields one empty field). -/
def splitLines : List Char → List (List Char)
  | [] => [[]]
  | c :: rest =>
      match splitLines rest with
      | [] => [[]]
      | l :: ls => if c = '\n' then [] :: l :: ls else (c :: l) :: ls

/-- The URL-list preparation on lines 940–941: the text stripped, split at
newlines, each entry stripped, blanks discarded. -/
def splitUrls (text : String) : List String :=
  ((splitLines (pyStrip text).toList).map (fun l => pyStrip ⟨l⟩)).filter
    (fun u => u ≠ "")

/-- Model of `YouTubeDownloaderApp.start_download` (source lines 935–967) as a
function of the manager state and the UI inputs, returning the manager
state after the call (the method never writes it) and the outcome.
`folderExists` is `os.path.exists(self.download_folder)`; `mkdirFail` is
`some msg` when `os.makedirs` raises `OSError` with text `msg`. -/
def start_download (mgr : MgrState) (urlText downloadFolder : String)
    (folderExists : Bool) (mkdirFail : Option String)
    (format_type : String) : MgrState × StartOutcome :=
  if mgr.install_status ≠ "installed" then (mgr, .errNotReady)
  else
    let urls := splitUrls urlText
    if urls = [] then (mgr, .errNoUrls)
    else if ¬ folderExists then
      match mkdirFail with
      | some e => (mgr, .errMkdir e)
      | none =>
          (mgr, .started { urls := urls, download_folder := downloadFolder,
                           format_type := format_type,
                           ffmpeg_path := mgr.ffmpeg_path })
    else
      (mgr, .started { urls := urls, download_folder := downloadFolder,
                       format_type := format_type,
                       ffmpeg_path := mgr.ffmpeg_path })

/-! ## Concrete instances used to exercise the theorems -/

/-- Extraction behaviour in which every URL downloads without hook calls
and without raising. -/
def behAllOk : String → ExtractBeh := fun _ => { hooks := [], err := none }

/-- Extraction behaviour for the two-URL scenario of the spec: the first
URL succeeds, the second raises with text `boom`. -/
def behSecondFails : String → ExtractBeh := fun u =>
  if u = "https://x/2" then { hooks := [], err := some "boom" }
  else { hooks := [], err := none }

/-- An acquisition environment on Windows where nothing is on PATH, no
well-known location exists, and the archive fetch fails partway. -/
def envFetchFails : AcqEnv :=
  { whichResult := none
    plat := "windows"
    programFiles := "C:/Program Files"
    programFilesX86 := "C:/Program Files (x86)"
    cwd := "C:/app"
    home := "C:/Users/u"
    pathExists := fun _ => false
    fetchOk := false
    fetchPercents := [10, 35]
    unzipOk := true
    binaryDir := none
    rmtreeOk := true }

/-- An acquisition environment where the binary is found on PATH at once. -/
def envWhichHit : AcqEnv :=
  { whichResult := some "/usr/bin/ffmpeg"
    plat := "linux"
    programFiles := ""
    programFilesX86 := ""
    cwd := "/app"
    home := "/home/u"
    pathExists := fun _ => false
    fetchOk := true
    fetchPercents := []
    unzipOk := true
    binaryDir := none
    rmtreeOk := true }

/-! ## Helper lemmas -/

/-- A progress-hook invocation emits nothing or a single downloading event. -/
theorem progress_hook_cases (d : HookDict) :
    progress_hook d = [] ∨ ∃ n f, progress_hook d = [Event.downloading n f] := by
  unfold progress_hook
  by_cases h : d.status = "downloading"
  · simp only [h, if_true]
    cases pyIntOfFloatStr (stripPercent (d.percent_str.getD "0%")) with
    | none => exact Or.inl rfl
    | some n => exact Or.inr ⟨n, d.filename.getD "", rfl⟩
  · exact Or.inl (if_neg h)

/-- Filtering downloading events away from the hook emissions of a list of
invocations leaves nothing, for any predicate false on downloading events. -/
theorem hookEvents_filter_eq_nil (hooks : List HookDict) (p : Event → Bool)
    (hp : ∀ n f, p (Event.downloading n f) = false) :
    (hooks.flatMap progress_hook).filter p = [] := by
  induction hooks with
  | nil => rfl
  | cons d rest ih =>
      rw [List.flatMap_cons, List.filter_append, ih]
      rcases progress_hook_cases d with h | ⟨n, f, h⟩
      · simp [h]
      · simp [h, hp]

/-- Every event of one URL iteration is a processing, downloading,
succeeded or failed event — never the completion signal. -/
theorem urlEvents_ne_batchDone (beh : String → ExtractBeh) (u : String) :
    ∀ e ∈ urlEvents beh u, e ≠ Event.batchDone := by
  intro e he
  unfold urlEvents at he
  rcases List.mem_cons.mp he with rfl | he'
  · exact fun h => Event.noConfusion h
  · rcases List.mem_append.mp he' with hm | hm
    · rcases List.mem_flatMap.mp hm with ⟨d, _, hd⟩
      rcases progress_hook_cases d with h | ⟨n, f, h⟩
      · rw [h] at hd; exact absurd hd (List.not_mem_nil e)
      · rw [h] at hd
        rcases List.mem_singleton.mp hd with rfl
        exact fun h => Event.noConfusion h
    · cases herr : (beh u).err with
      | none =>
          rw [herr] at hm
          rcases List.mem_singleton.mp hm with rfl
          exact fun h => Event.noConfusion h
      | some s =>
          rw [herr] at hm
          rcases List.mem_singleton.mp hm with rfl
          exact fun h => Event.noConfusion h

/-- The completion signal is never produced inside the URL loop, whatever
the cancellation flag does. -/
theorem batchDone_not_mem_runLoop (beh : String → ExtractBeh) (alive : Nat → Bool) :
    ∀ (urls : List String) (i : Nat), Event.batchDone ∉ runLoop beh alive i urls := by
  intro urls
  induction urls with
  | nil => intro i h; exact absurd h (List.not_mem_nil _)
  | cons u rest ih =>
      intro i h
      unfold runLoop at h
      by_cases ha : alive i
      · rw [if_pos ha] at h
        rcases List.mem_append.mp h with hm | hm
        · exact urlEvents_ne_batchDone beh u _ hm rfl
        · exact ih (i + 1) hm
      · rw [if_neg ha] at h
        exact absurd h (List.not_mem_nil _)

/-- A full run emits the completion signal exactly once. -/
theorem runThread_count_batchDone (beh : String → ExtractBeh) (alive : Nat → Bool)
    (urls : List String) :
    (runThread beh alive urls).count Event.batchDone = 1 := by
  unfold runThread
  rw [List.count_append]
  rw [List.count_eq_zero.mpr (batchDone_not_mem_runLoop beh alive urls 0)]
  rfl

/-- A full run ends with the completion signal. -/
theorem runThread_getLast (beh : String → ExtractBeh) (alive : Nat → Bool)
    (urls : List String) :
    (runThread beh alive urls).getLast? = some Event.batchDone := by
  unfold runThread
  rw [List.getLast?_concat]

/-- With the cancellation flag never observed set, the loop visits every
URL in order. -/
theorem runLoop_alive_true (beh : String → ExtractBeh) :
    ∀ (urls : List String) (i : Nat),
      runLoop beh (fun _ => true) i urls = urls.flatMap (urlEvents beh) := by
  intro urls
  induction urls with
  | nil => intro i; rfl
  | cons u rest ih =>
      intro i
      unfold runLoop
      rw [if_pos rfl, ih (i + 1), List.flatMap_cons]

/-- A URL whose extraction returns normally contributes exactly its
succeeded event to the succeeded-filtered trace. -/
theorem urlEvents_filter_succeeded (beh : String → ExtractBeh) (u : String)
    (h : (beh u).err = none) :
    (urlEvents beh u).filter Event.isSucceeded = [Event.succeeded u] := by
  unfold urlEvents
  rw [h]
  rw [List.filter_cons_of_neg (by simp [Event.isSucceeded])]
  rw [List.filter_append, hookEvents_filter_eq_nil _ _ (fun _ _ => rfl)]
  rfl

/-- Each URL iteration contributes exactly its processing event to the
processing-filtered trace, whether the extraction succeeded or raised. -/
theorem urlEvents_filter_processing (beh : String → ExtractBeh) (u : String) :
    (urlEvents beh u).filter Event.isProcessing = [Event.processing u] := by
  unfold urlEvents
  rw [List.filter_cons_of_pos (by rfl)]
  rw [List.filter_append, hookEvents_filter_eq_nil _ _ (fun _ _ => rfl)]
  cases herr : (beh u).err <;> rfl

/-- The failed event of a URL whose extraction raised is among that URL's
events. -/
theorem failed_mem_urlEvents (beh : String → ExtractBeh) (u e : String)
    (he : (beh u).err = some e) :
    Event.failed u e ∈ urlEvents beh u := by
  unfold urlEvents
  rw [he]
  exact List.mem_cons_of_mem _ (List.mem_append_right _ (List.mem_singleton.mpr rfl))

/-- With no failures, the succeeded-filtered trace of the whole batch is
one succeeded event per URL, in order. -/
theorem flatMap_urlEvents_filter_succeeded (beh : String → ExtractBeh) :
    ∀ urls : List String, (∀ u ∈ urls, (beh u).err = none) →
      (urls.flatMap (urlEvents beh)).filter Event.isSucceeded
        = urls.map Event.succeeded := by
  intro urls
  induction urls with
  | nil => intro _; rfl
  | cons u rest ih =>
      intro h
      rw [List.flatMap_cons, List.filter_append,
        urlEvents_filter_succeeded beh u (h u (List.mem_cons_self u rest)),
        ih (fun v hv => h v (List.mem_cons_of_mem u hv)), List.map_cons]
      rfl

/-- The processing-filtered trace of the whole batch is one processing
event per URL, in order, regardless of per-URL success. -/
theorem flatMap_urlEvents_filter_processing (beh : String → ExtractBeh) :
    ∀ urls : List String,
      (urls.flatMap (urlEvents beh)).filter Event.isProcessing
        = urls.map Event.processing := by
  intro urls
  induction urls with
  | nil => rfl
  | cons u rest ih =>
      rw [List.flatMap_cons, List.filter_append, urlEvents_filter_processing,
        ih, List.map_cons]
      rfl

/-- If the flag reads true for the first k+1 checks and false at check
k+1, the loop's processing events are exactly those of the first k+1 URLs. -/
theorem runLoop_filter_processing_of_stop (beh : String → ExtractBeh)
    (alive : Nat → Bool) :
    ∀ (urls : List String) (i k : Nat),
      (∀ j, j ≤ k → alive (i + j) = true) → alive (i + (k + 1)) = false →
      k + 1 ≤ urls.length →
      (runLoop beh alive i urls).filter Event.isProcessing
        = (urls.take (k + 1)).map Event.processing := by
  intro urls
  induction urls with
  | nil =>
      intro i k _ _ hlen
      simp at hlen
  | cons u rest ih =>
      intro i k hal hstop hlen
      have h0 : alive i = true := by simpa using hal 0 (Nat.zero_le k)
      unfold runLoop
      rw [if_pos h0, List.filter_append, urlEvents_filter_processing]
      cases k with
      | zero =>
          have h1 : alive (i + 1) = false := by simpa using hstop
          have hempty : runLoop beh alive (i + 1) rest = [] := by
            cases rest with
            | nil => rfl
            | cons v vs =>
                unfold runLoop
                rw [if_neg (by simp [h1])]
          rw [hempty]
          rfl
      | succ k' =>
          have hlen' : k' + 1 ≤ rest.length := by
            rw [List.length_cons] at hlen; omega
          have hrec := ih (i + 1) k'
            (fun j hj => by
              have harith : i + 1 + j = i + (j + 1) := by omega
              rw [harith]
              exact hal (j + 1) (by omega))
            (by
              have harith : i + 1 + (k' + 1) = i + (k' + 1 + 1) := by omega
              rw [harith]
              exact hstop)
            hlen'
          rw [hrec]
          rfl

/-! ## The claims -/

/-- C1: for a batch of N URLs processed with the cancellation flag never
set and the extraction call returning normally for every URL, the worker
emits exactly N succeeded events — one per URL, in the order the URLs were
given, each an update_progress emission at percent 100 — and exactly one
completion signal, emitted last. -/
theorem C1_all_success_events (urls : List String) (beh : String → ExtractBeh)
    (h : ∀ u ∈ urls, (beh u).err = none) :
    (runThread beh (fun _ => true) urls).filter Event.isSucceeded
        = urls.map Event.succeeded
    ∧ ((runThread beh (fun _ => true) urls).filter Event.isSucceeded).map emitArgs
        = urls.map (fun u => some ((100 : Int), "✔ Finished: " ++ u))
    ∧ (runThread beh (fun _ => true) urls).count Event.batchDone = 1
    ∧ (runThread beh (fun _ => true) urls).getLast? = some Event.batchDone := by
  have hfilter : (runThread beh (fun _ => true) urls).filter Event.isSucceeded
      = urls.map Event.succeeded := by
    unfold runThread
    rw [List.filter_append, runLoop_alive_true beh urls 0,
      flatMap_urlEvents_filter_succeeded beh urls h]
    simp [Event.isSucceeded]
  refine ⟨hfilter, ?_, runThread_count_batchDone beh _ urls,
    runThread_getLast beh _ urls⟩
  rw [hfilter, List.map_map]
  rfl

/-- Witness for C1: the two-URL batch with every extraction succeeding. -/
theorem C1_all_success_events_witness :
    (runThread behAllOk (fun _ => true) ["https://x/1", "https://x/2"]).filter
        Event.isSucceeded
        = ["https://x/1", "https://x/2"].map Event.succeeded
    ∧ ((runThread behAllOk (fun _ => true) ["https://x/1", "https://x/2"]).filter
        Event.isSucceeded).map emitArgs
        = ["https://x/1", "https://x/2"].map
            (fun u => some ((100 : Int), "✔ Finished: " ++ u))
    ∧ (runThread behAllOk (fun _ => true)
        ["https://x/1", "https://x/2"]).count Event.batchDone = 1
    ∧ (runThread behAllOk (fun _ => true)
        ["https://x/1", "https://x/2"]).getLast? = some Event.batchDone :=
  C1_all_success_events ["https://x/1", "https://x/2"] behAllOk (fun _ _ => rfl)

/-- C2: a URL whose extraction call raises yields a failed event — an
update_progress emission at percent 0 carrying the exception text — the
exception is swallowed (the run function is total), every URL of the batch
still receives its processing event in order, and the batch still ends
with its single completion signal. -/
theorem C2_per_url_failure (urls : List String) (beh : String → ExtractBeh)
    (u e : String) (hu : u ∈ urls) (he : (beh u).err = some e) :
    Event.failed u e ∈ runThread beh (fun _ => true) urls
    ∧ emitArgs (Event.failed u e) = some (0, "❌ Error: " ++ e)
    ∧ (runThread beh (fun _ => true) urls).filter Event.isProcessing
        = urls.map Event.processing
    ∧ (runThread beh (fun _ => true) urls).count Event.batchDone = 1 := by
  refine ⟨?_, rfl, ?_, runThread_count_batchDone beh _ urls⟩
  · unfold runThread
    refine List.mem_append_left _ ?_
    rw [runLoop_alive_true beh urls 0]
    exact List.mem_flatMap.mpr ⟨u, hu, failed_mem_urlEvents beh u e he⟩
  · unfold runThread
    rw [List.filter_append, runLoop_alive_true beh urls 0,
      flatMap_urlEvents_filter_processing beh urls]
    simp [Event.isProcessing]

/-- Witness for C2: the spec scenario where the second of two URLs raises. -/
theorem C2_per_url_failure_witness :
    Event.failed "https://x/2" "boom"
        ∈ runThread behSecondFails (fun _ => true) ["https://x/1", "https://x/2"]
    ∧ emitArgs (Event.failed "https://x/2" "boom") = some (0, "❌ Error: " ++ "boom")
    ∧ (runThread behSecondFails (fun _ => true)
        ["https://x/1", "https://x/2"]).filter Event.isProcessing
        = ["https://x/1", "https://x/2"].map Event.processing
    ∧ (runThread behSecondFails (fun _ => true)
        ["https://x/1", "https://x/2"]).count Event.batchDone = 1 :=
  C2_per_url_failure ["https://x/1", "https://x/2"] behSecondFails
    "https://x/2" "boom" (by simp) rfl

/-- C3: if the cancellation flag reads set at the loop check following the
first k+1 URLs (cancellation after that URL's terminal event), the run
emits processing events for exactly the first k+1 URLs — none for the next
URL, which exists — and still exactly one completion signal. -/
theorem C3_cancel_stops_iteration (urls : List String)
    (beh : String → ExtractBeh) (alive : Nat → Bool) (k : Nat)
    (hk : k + 1 < urls.length)
    (halive : ∀ j, j ≤ k → alive j = true) (hstop : alive (k + 1) = false) :
    (runThread beh alive urls).filter Event.isProcessing
        = (urls.take (k + 1)).map Event.processing
    ∧ (runThread beh alive urls).count Event.batchDone = 1 := by
  constructor
  · unfold runThread
    rw [List.filter_append]
    rw [runLoop_filter_processing_of_stop beh alive urls 0 k
      (fun j hj => by simpa using halive j hj) (by simpa using hstop)
      (le_of_lt hk)]
    simp [Event.isProcessing]
  · exact runThread_count_batchDone beh alive urls

/-- Witness for C3: three URLs, flag observed cleared from the second
check on. -/
theorem C3_cancel_stops_iteration_witness :
    (runThread behAllOk (fun i => i == 0) ["a", "b", "c"]).filter
        Event.isProcessing
        = ((["a", "b", "c"] : List String).take 1).map Event.processing
    ∧ (runThread behAllOk (fun i => i == 0) ["a", "b", "c"]).count
        Event.batchDone = 1 :=
  C3_cancel_stops_iteration ["a", "b", "c"] behAllOk (fun i => i == 0) 0
    (by norm_num) (fun j hj => by rw [Nat.le_zero.mp hj]; rfl) rfl

/-- C4: a batch start requested while the runtime-binary state is not
installed is rejected synchronously — the outcome carries no constructed
worker — and the manager state is returned unchanged by the rejection. -/
theorem C4_reject_when_not_installed (mgr : MgrState) (urlText folder : String)
    (folderExists : Bool) (mkdirFail : Option String) (fmt : String)
    (h : mgr.install_status ≠ "installed") :
    start_download mgr urlText folder folderExists mkdirFail fmt
      = (mgr, StartOutcome.errNotReady) := by
  unfold start_download
  rw [if_pos h]

/-- Witness for C4: starting while the manager is still checking. -/
theorem C4_reject_when_not_installed_witness :
    start_download initMgrState "https://x" "/tmp/out" true none "mp3_192"
      = (initMgrState, StartOutcome.errNotReady) :=
  C4_reject_when_not_installed initMgrState "https://x" "/tmp/out" true none
    "mp3_192" (by decide)

/-- C5: a progress-callback invocation whose reported percent string does
not parse as a numeric percentage emits nothing at all — in particular no
downloading event — and, the hook being a total function, raises nothing
and leaves the batch to continue. -/
theorem C5_unparsable_percent_dropped (d : HookDict)
    (h : pyIntOfFloatStr (stripPercent (d.percent_str.getD "0%")) = none) :
    progress_hook d = [] := by
  unfold progress_hook
  by_cases hs : d.status = "downloading"
  · rw [if_pos hs, h]
  · exact if_neg hs

/-- Witness for C5: yt-dlp reporting a non-numeric percent placeholder. -/
theorem C5_unparsable_percent_dropped_witness :
    progress_hook
      { status := "downloading", percent_str := some "N/A%", filename := none }
      = [] :=
  C5_unparsable_percent_dropped
    { status := "downloading", percent_str := some "N/A%", filename := none } (by rfl)

/-- C6 counterexample: the claim that every acquisition progress callback
computes a well-defined percentage in [0,100] is false — at total size 0
the division raises (the computation is undefined), so no such percentage
exists for block count 1, block size 1, total size 0. -/
theorem C6_counterexample :
    ¬ (∀ block_num block_size total_size : Int,
        ∃ p, report_progress block_num block_size total_size = some p
          ∧ 0 ≤ p ∧ p ≤ 100) := by
  intro h
  obtain ⟨p, hp, -, -⟩ := h 1 1 0
  simp [report_progress] at hp

/-- C6 amended: when the reported total size is positive and the block
count and block size are nonnegative, the percentage is well-defined and
lies in [0,100] (the min clamps above; the quotient is nonnegative).  The
code does not guard the division: a zero total size raises and a negative
total size yields a negative percentage. -/
theorem C6_percent_range (block_num block_size total_size : Int)
    (hts : 0 < total_size) (hbn : 0 ≤ block_num) (hbs : 0 ≤ block_size) :
    ∃ p, report_progress block_num block_size total_size = some p
      ∧ 0 ≤ p ∧ p ≤ 100 := by
  refine ⟨min ((block_num * block_size * 100).tdiv total_size) 100, ?_, ?_,
    min_le_right _ _⟩
  · simp [report_progress, hts.ne']
  · exact le_min
      (Int.tdiv_nonneg (by positivity) hts.le)
      (by norm_num)

/-- Witness for C6 amended: 3 blocks of 512 bytes of a 2048-byte download. -/
theorem C6_percent_range_witness :
    ∃ p, report_progress 3 512 2048 = some p ∧ 0 ≤ p ∧ p ≤ 100 :=
  C6_percent_range 3 512 2048 (by norm_num) (by norm_num) (by norm_num)

/-- C7 counterexample: the claim that cancelling a running worker blocks
the caller for at most a bounded interval regardless of whether the worker
has exited is false — the cancel path performs an unbounded join. -/
theorem C7_counterexample :
    ¬ (∀ j ∈ cancelDownloadJoins true true, j.isBounded) := by
  intro h
  exact h JoinCall.unboundedWait (by decide)

/-- C7 amended: stop itself only ever joins with a 2000 ms bound, but
cancel_download then performs an unconditional untimed join, so the caller
is released only when the worker actually exits — the wait is bounded only
in that case. -/
theorem C7_cancel_join_structure (threadRunning : Bool) :
    (∀ j ∈ stopJoins threadRunning, j = JoinCall.timedWait 2000)
    ∧ cancelDownloadJoins true threadRunning
        = stopJoins threadRunning ++ [JoinCall.unboundedWait] := by
  constructor
  · intro j hj
    cases threadRunning with
    | false => exact absurd hj (List.not_mem_nil j)
    | true => simpa [stopJoins] using hj
  · rfl

/-- Witness for C7 amended: the running-worker case. -/
theorem C7_cancel_join_structure_witness :
    JoinCall.timedWait 2000 = JoinCall.timedWait 2000
    ∧ cancelDownloadJoins true true
        = stopJoins true ++ [JoinCall.unboundedWait] :=
  ⟨(C7_cancel_join_structure true).1 (JoinCall.timedWait 2000) (by decide),
   (C7_cancel_join_structure true).2⟩

/-- C9: the options built for each format selector realize the specified
mapping — both audio selectors query the best audio-only stream with an
audio-extraction post-processor, at 320 kbps for mp3_320 (audio_high) and
192 kbps for mp3_192 (audio_low); mp4_720 and mp4_1080 query best video
capped at height 720 and 1080 respectively merged with best audio into an
mp4 container; mp4_best queries best video plus best audio merged with no
height cap. -/
theorem C9_format_mapping (folder : String) (fp : Option String) :
    ((build_ytdlp_options folder "mp3_320" fp).format = some "bestaudio/best"
      ∧ (build_ytdlp_options folder "mp3_320" fp).postprocessors
          = [{ key := "FFmpegExtractAudio", preferredcodec := "mp3",
               preferredquality := "320" }])
    ∧ ((build_ytdlp_options folder "mp3_192" fp).format = some "bestaudio/best"
      ∧ (build_ytdlp_options folder "mp3_192" fp).postprocessors
          = [{ key := "FFmpegExtractAudio", preferredcodec := "mp3",
               preferredquality := "192" }])
    ∧ ((build_ytdlp_options folder "mp4_720" fp).format
          = some "bestvideo[height<=720][ext=mp4]+bestaudio[ext=m4a]/best[height<=720][ext=mp4]/best"
      ∧ (build_ytdlp_options folder "mp4_720" fp).merge_output_format = some "mp4"
      ∧ (build_ytdlp_options folder "mp4_720" fp).postprocessors = [])
    ∧ ((build_ytdlp_options folder "mp4_1080" fp).format
          = some "bestvideo[height<=1080][ext=mp4]+bestaudio[ext=m4a]/best[height<=1080][ext=mp4]/best"
      ∧ (build_ytdlp_options folder "mp4_1080" fp).merge_output_format = some "mp4"
      ∧ (build_ytdlp_options folder "mp4_1080" fp).postprocessors = [])
    ∧ ((build_ytdlp_options folder "mp4_best" fp).format
          = some "bestvideo[ext=mp4]+bestaudio[ext=m4a]/best[ext=mp4]/best"
      ∧ (build_ytdlp_options folder "mp4_best" fp).merge_output_format = some "mp4"
      ∧ (build_ytdlp_options folder "mp4_best" fp).postprocessors = []) := by
  refine ⟨⟨?_, ?_⟩, ⟨?_, ?_⟩, ⟨?_, ?_, ?_⟩, ⟨?_, ?_, ?_⟩, ⟨?_, ?_, ?_⟩⟩ <;> rfl

/-- On an archive-fetch failure, an extraction failure, or the binary not
appearing in the extracted tree, download_ffmpeg returns False without
touching the manager state, and its only emissions are the fetch-progress
reports, each carrying the pre-call path. -/
theorem download_ffmpeg_fail (env : AcqEnv) (st : MgrState)
    (hfail : env.fetchOk = false ∨ env.unzipOk = false ∨ env.binaryDir = none) :
    download_ffmpeg env st
      = (st, false, env.fetchPercents.map fun p =>
          { status := "downloading"
            message := "Downloading FFmpeg... " ++ toString p ++ "%"
            pathAtEmit := st.ffmpeg_path }) := by
  unfold download_ffmpeg
  rcases hfail with h | h | h
  · simp [h]
  · by_cases hf : env.fetchOk <;> simp [hf, h]
  · by_cases hf : env.fetchOk <;> by_cases hu : env.unzipOk <;> simp [hf, hu, h]

/-- download_ffmpeg either leaves the state untouched and returns False,
or has set the status to installed with a resolved path. -/
theorem download_ffmpeg_state_cases (env : AcqEnv) (st : MgrState) :
    ((download_ffmpeg env st).1 = st ∧ (download_ffmpeg env st).2.1 = false)
    ∨ ((download_ffmpeg env st).1.install_status = "installed"
        ∧ (download_ffmpeg env st).1.ffmpeg_path ≠ none) := by
  unfold download_ffmpeg
  by_cases hf : env.fetchOk
  · by_cases hu : env.unzipOk
    · cases hb : env.binaryDir with
      | none => left; simp [hf, hu, hb]
      | some dir => right; simp [hf, hu, hb]
    · left; simp [hf, hu]
  · left; simp [hf]

/-- Every emission of download_ffmpeg is a fetch-progress report carrying
the pre-call path. -/
theorem download_ffmpeg_emissions_eq (env : AcqEnv) (st : MgrState) :
    (download_ffmpeg env st).2.2
      = env.fetchPercents.map fun p =>
          { status := "downloading"
            message := "Downloading FFmpeg... " ++ toString p ++ "%"
            pathAtEmit := st.ffmpeg_path } := by
  unfold download_ffmpeg
  by_cases hf : env.fetchOk
  · by_cases hu : env.unzipOk
    · cases hb : env.binaryDir with
      | none => simp [hf, hu, hb]
      | some dir => simp [hf, hu, hb]
    · simp [hf, hu]
  · simp [hf]

/-- C8: when acquisition fails — network error during the archive fetch,
malformed archive, or binary not found in the extracted tree — the run of
find_ffmpeg from the initial state ends with status missing, the resolved
binary path still unset, and no emission along the way ever carries a
(partially written) path. -/
theorem C8_acquire_failure_missing (env : AcqEnv)
    (hwhich : env.whichResult = none)
    (hprobe : (commonPaths env).find? env.pathExists = none)
    (hplat : env.plat = "windows")
    (hfail : env.fetchOk = false ∨ env.unzipOk = false ∨ env.binaryDir = none) :
    (find_ffmpeg env initMgrState).1.install_status = "missing"
    ∧ (find_ffmpeg env initMgrState).1.ffmpeg_path = none
    ∧ ∀ ev ∈ (find_ffmpeg env initMgrState).2.2, ev.pathAtEmit = none := by
  have hdl := download_ffmpeg_fail env initMgrState hfail
  simp only [initMgrState] at hdl
  refine ⟨?_, ?_, ?_⟩
  · simp [find_ffmpeg, hwhich, hprobe, hplat, initMgrState, hdl]
  · simp [find_ffmpeg, hwhich, hprobe, hplat, initMgrState, hdl]
  · intro ev hev
    simp [find_ffmpeg, hwhich, hprobe, hplat, initMgrState, hdl] at hev
    rcases hev with rfl | ⟨p, -, rfl⟩ | rfl <;> rfl

/-- Witness for C8: Windows environment with nothing installed and the
archive fetch failing partway. -/
theorem C8_acquire_failure_missing_witness :
    (find_ffmpeg envFetchFails initMgrState).1.install_status = "missing"
    ∧ (find_ffmpeg envFetchFails initMgrState).1.ffmpeg_path = none :=
  ⟨(C8_acquire_failure_missing envFetchFails rfl rfl rfl (Or.inl rfl)).1,
   (C8_acquire_failure_missing envFetchFails rfl rfl rfl (Or.inl rfl)).2.1⟩

/-- C10: invariant of the acquisition component — whenever the stored
status is installed after a find_ffmpeg run, the resolved path field holds
a path, and every emitted installed status event carries a resolved path
at the moment of emission; this holds from any starting state. -/
theorem C10_installed_has_path (env : AcqEnv) (st : MgrState) :
    ((find_ffmpeg env st).1.install_status = "installed"
        → (find_ffmpeg env st).1.ffmpeg_path ≠ none)
    ∧ ∀ ev ∈ (find_ffmpeg env st).2.2,
        ev.status = "installed" → ev.pathAtEmit ≠ none := by
  cases hw : env.whichResult with
  | some p =>
      constructor
      · intro _
        simp [find_ffmpeg, hw]
      · intro ev hev _
        simp [find_ffmpeg, hw] at hev
        subst hev
        simp
  | none =>
      cases hp : (commonPaths env).find? env.pathExists with
      | some q =>
          constructor
          · intro _
            simp [find_ffmpeg, hw, hp]
          · intro ev hev _
            simp [find_ffmpeg, hw, hp] at hev
            subst hev
            simp
      | none =>
          by_cases hwin : env.plat = "windows"
          · cases hr : (download_ffmpeg env st).2.1 with
            | true =>
                have hpath : (download_ffmpeg env st).1.ffmpeg_path ≠ none := by
                  rcases download_ffmpeg_state_cases env st with ⟨-, hfalse⟩ | ⟨-, h2⟩
                  · rw [hr] at hfalse; exact absurd hfalse (by simp)
                  · exact h2
                constructor
                · intro _
                  simpa [find_ffmpeg, hw, hp, hwin, hr] using hpath
                · intro ev hev hst
                  simp [find_ffmpeg, hw, hp, hwin, hr,
                    download_ffmpeg_emissions_eq] at hev
                  rcases hev with rfl | ⟨x, -, rfl⟩ | rfl
                  · exact absurd hst (by simp)
                  · exact absurd hst (by simp)
                  · simpa using hpath
            | false =>
                constructor
                · intro habs
                  simp [find_ffmpeg, hw, hp, hwin, hr] at habs
                · intro ev hev hst
                  simp [find_ffmpeg, hw, hp, hwin, hr,
                    download_ffmpeg_emissions_eq] at hev
                  rcases hev with rfl | ⟨x, -, rfl⟩ | rfl <;>
                    exact absurd hst (by simp)
          · constructor
            · intro habs
              simp [find_ffmpeg, hw, hp, hwin] at habs
            · intro ev hev hst
              simp [find_ffmpeg, hw, hp, hwin] at hev
              subst hev
              exact absurd hst (by simp)

/-- Witness for C10: the binary found on PATH, the installed state carries
its path. -/
theorem C10_installed_has_path_witness :
    (find_ffmpeg envWhichHit initMgrState).1.ffmpeg_path ≠ none :=
  (C10_installed_has_path envWhichHit initMgrState).1 rfl

end MediaDownloader
